import Mathlib

/-!
Verification of the log-synchronization core of the `mixes-db` crate.

Each Rust function relevant to the checked properties is shallowly embedded
as an executable Lean definition.  Machine integers (`u8`, `u16`, `u32`,
`u64`) are embedded as `Nat` together with explicit `% 2 ^ w` reductions and
`< 2 ^ w` hypotheses at the points where the width matters.  Code that can
panic (`unwrap`, `expect`, `todo!`, out-of-bounds slicing) is embedded in an
`Except String` monad whose error value records the panic message, and Rust
`Result` values are embedded as `Except` as well.
-/

namespace MixesDb

/-- Metadata of one log, as in `logs_tf/log.rs` (`LogMetadata`): a `u32` id,
a timestamp (embedded as an integer), the map name and a `u8` player count. -/
structure LogMetadata where
  id : Nat
  dateTime : Int
  map : String
  numPlayers : Nat
deriving Repr, DecidableEq

/-! ## Deduplication filter (`sql_db.rs`, `remove_external_occurrences`)

The source walks both vectors back to front with one-indexed cursors
`target_i` and `check_i`, comparing `target[target_i - 1].id` with
`check[check_i - 1]`:

* `Ordering::Equal`  : remove the target element, `target_i -= 1`;
* `Ordering::Less`   : keep it, `target_i -= 1`;
* `Ordering::Greater`: `check_i -= 1`.

A back-to-front walk of a vector is a head-first walk of the reversed list,
and removing the element under the cursor is dropping the head.  The loop is
therefore embedded as structural recursion over the two reversed lists, with
the `match ... .cmp(...)` over `Ordering` rendered as the corresponding
three-way `if`. -/

/-- The loop of `remove_external_occurrences`, acting on the reversed
(hence ascending) lists.  The loop exits when either cursor reaches zero,
i.e. when either list is exhausted, keeping the rest of `target`. -/
def removeLoop : List LogMetadata → List Nat → List LogMetadata
  | [], _ => []
  | ts, [] => ts
  | t :: ts, c :: cs =>
    if t.id = c then removeLoop ts (c :: cs)
    else if t.id < c then t :: removeLoop ts (c :: cs)
    else removeLoop (t :: ts) cs
termination_by ts cs => ts.length + cs.length

/-- `remove_external_occurrences` from `sql_db.rs`: the early return when
either input is empty, then the back-to-front loop (see `removeLoop`). -/
def remove_external_occurrences (target : List LogMetadata) (check : List Nat) :
    List LogMetadata :=
  if check.isEmpty || target.isEmpty then target
  else (removeLoop target.reverse check.reverse).reverse

/-- On ascending inputs, the loop keeps exactly the target entries whose id
does not occur in `check`, in their original order. -/
theorem removeLoop_eq_filter (ts : List LogMetadata) (cs : List Nat)
    (hts : ts.Pairwise (fun a b => a.id ≤ b.id)) (hcs : cs.Pairwise (· ≤ ·)) :
    removeLoop ts cs = ts.filter (fun m => !(cs.contains m.id)) := by
  induction ts, cs using removeLoop.induct with
  | case1 cs => simp [removeLoop]
  | case2 ts h =>
    simp [removeLoop]
  | case3 t ts cs ih =>
    rw [removeLoop, if_pos rfl, ih (List.Pairwise.of_cons hts) hcs,
      List.filter_cons]
    simp
  | case4 t ts c cs hne hlt ih =>
    have hmem : t.id ∉ c :: cs := by
      intro hmem
      rcases List.mem_cons.mp hmem with h | h
      · exact hne h
      · have : c ≤ t.id := (List.pairwise_cons.mp hcs).1 _ h
        omega
    have h1 : (c :: cs).contains t.id = false := by
      simp [List.contains, hmem]
    rw [removeLoop, if_neg hne, if_pos hlt, ih (List.Pairwise.of_cons hts) hcs,
      List.filter_cons, h1]
    simp
  | case5 t ts c cs hne hnlt ih =>
    rw [removeLoop, if_neg hne, if_neg hnlt,
      ih hts (List.Pairwise.of_cons hcs)]
    refine List.filter_congr ?_
    intro m hm
    have htm : t.id ≤ m.id := by
      rcases List.mem_cons.mp hm with hm | hm
      · exact hm ▸ le_refl _
      · exact (List.pairwise_cons.mp hts).1 m hm
    have h2 : (m.id == c) = false := by
      simp only [beq_eq_false_iff_ne]
      omega
    simp only [List.contains_cons, h2, Bool.false_or]

/-- Claim C1: for every pair of sequences sorted in descending order by id,
`remove_external_occurrences` leaves in `target` exactly those elements whose
id does not occur in `check`, preserving their original relative order (the
result is literally the order-preserving filter of `target`); neither
sequence needs to be a subset of the other. -/
theorem remove_external_occurrences_correct (target : List LogMetadata) (check : List Nat)
    (htarget : target.Pairwise (fun a b => b.id ≤ a.id))
    (hcheck : check.Pairwise (fun a b => b ≤ a)) :
    remove_external_occurrences target check
      = target.filter (fun m => !(check.contains m.id)) := by
  unfold remove_external_occurrences
  split
  · rename_i hcase
    rcases Bool.or_eq_true_iff.mp hcase with h | h
    · rw [List.isEmpty_iff.mp h]
      simp
    · rw [List.isEmpty_iff.mp h]
      simp
  · rw [removeLoop_eq_filter _ _ (List.pairwise_reverse.mpr htarget)
      (List.pairwise_reverse.mpr hcheck)]
    rw [← List.filter_reverse, List.reverse_reverse]
    refine List.filter_congr ?_
    intro m _
    simp [List.contains, List.mem_reverse]

/-- Witness for C1 on the concrete vectors of the crate's own unit test:
ids `[2145, 1247, 5, 0]` against known ids `[1247, 0]`. -/
theorem remove_external_occurrences_correct_witness :
    ([⟨2145, 0, "cp_sunshine", 12⟩, ⟨1247, 0, "cp_sunshine", 12⟩,
        ⟨5, 0, "cp_sunshine", 12⟩, ⟨0, 0, "cp_sunshine", 12⟩] :
      List LogMetadata).Pairwise (fun a b => b.id ≤ a.id)
    ∧ ([1247, 0] : List Nat).Pairwise (fun a b => b ≤ a)
    ∧ remove_external_occurrences
        [⟨2145, 0, "cp_sunshine", 12⟩, ⟨1247, 0, "cp_sunshine", 12⟩,
         ⟨5, 0, "cp_sunshine", 12⟩, ⟨0, 0, "cp_sunshine", 12⟩] [1247, 0]
      = List.filter (fun m => !(([1247, 0] : List Nat).contains m.id))
          [⟨2145, 0, "cp_sunshine", 12⟩, ⟨1247, 0, "cp_sunshine", 12⟩,
           ⟨5, 0, "cp_sunshine", 12⟩, ⟨0, 0, "cp_sunshine", 12⟩] :=
  ⟨by decide, by decide,
    remove_external_occurrences_correct _ _ (by decide) (by decide)⟩

/-! ## SteamID codec (`steam_id.rs`)

Field extraction by mask-and-shift on a 64-bit value, e.g.
`(id64 & (0xff << 56)) >> 56`, is embedded as the arithmetic field read
`id64 / 2 ^ 56 % 2 ^ 8`; the `|=` packing of pairwise disjoint shifted
fields in `from_parts` is embedded as the corresponding sum, with the `u32`
argument reduced `% 2 ^ 32` as the cast `id as u64` of a `u32` guarantees. -/

inductive Universe
  | Unspecified | Public | Beta | Internal | Dev | RC
deriving Repr, DecidableEq

/-- The enum discriminant of a `Universe`, i.e. the value of `universe as u64`. -/
def Universe.val : Universe → Nat
  | .Unspecified => 0
  | .Public => 1
  | .Beta => 2
  | .Internal => 3
  | .Dev => 4
  | .RC => 5

/-- `Universe::from_u8` as derived by `enum_primitive_derive::Primitive`:
the inverse of the discriminant mapping, `none` on every other byte. -/
def Universe.from_u8 (b : Nat) : Option Universe :=
  if b = 0 then some .Unspecified
  else if b = 1 then some .Public
  else if b = 2 then some .Beta
  else if b = 3 then some .Internal
  else if b = 4 then some .Dev
  else if b = 5 then some .RC
  else none

inductive AccountType
  | Invalid | Individual | Multiseat | GameServer | AnonGameServer
  | Pending | ContentServer | Clan | Chat | AnonUser
deriving Repr, DecidableEq

/-- The enum discriminant of an `AccountType` (`AnonUser = 10`; the value 9,
the P2P SuperSeeder, is skipped in the source). -/
def AccountType.val : AccountType → Nat
  | .Invalid => 0
  | .Individual => 1
  | .Multiseat => 2
  | .GameServer => 3
  | .AnonGameServer => 4
  | .Pending => 5
  | .ContentServer => 6
  | .Clan => 7
  | .Chat => 8
  | .AnonUser => 10

/-- `AccountType::from_u8` as derived by `Primitive`: inverse of `val`. -/
def AccountType.from_u8 (b : Nat) : Option AccountType :=
  if b = 0 then some .Invalid
  else if b = 1 then some .Individual
  else if b = 2 then some .Multiseat
  else if b = 3 then some .GameServer
  else if b = 4 then some .AnonGameServer
  else if b = 5 then some .Pending
  else if b = 6 then some .ContentServer
  else if b = 7 then some .Clan
  else if b = 8 then some .Chat
  else if b = 10 then some .AnonUser
  else none

theorem universe_from_u8_isSome_iff (b : Nat) :
    (Universe.from_u8 b).isSome ↔ b ≤ 5 := by
  unfold Universe.from_u8
  split_ifs <;> simp_all <;> omega

theorem accountType_from_u8_isSome_iff (b : Nat) :
    (AccountType.from_u8 b).isSome ↔ (b ≤ 8 ∨ b = 10) := by
  unfold AccountType.from_u8
  split_ifs <;> simp_all <;> omega

theorem universe_val_from_u8 {b : Nat} {u : Universe}
    (h : Universe.from_u8 b = some u) : u.val = b := by
  unfold Universe.from_u8 at h
  split_ifs at h <;>
    first
      | (obtain rfl := Option.some_inj.mp h
         simp only [Universe.val]
         omega)
      | exact absurd h (by simp)

theorem accountType_val_from_u8 {b : Nat} {t : AccountType}
    (h : AccountType.from_u8 b = some t) : t.val = b := by
  unfold AccountType.from_u8 at h
  split_ifs at h <;>
    first
      | (obtain rfl := Option.some_inj.mp h
         simp only [AccountType.val]
         omega)
      | exact absurd h (by simp)

structure SteamID where
  id64 : Nat
deriving Repr, DecidableEq

def UNIVERSE_OFFSET_BITS : Nat := 56
def ACCOUNT_TYPE_OFFSET_BITS : Nat := 52
def ACCOUNT_INSTANCE_OFFSET_BITS : Nat := 32

def SteamID.try_for_universe (id64 : Nat) : Option Universe :=
  Universe.from_u8 (id64 / 2 ^ UNIVERSE_OFFSET_BITS % 2 ^ 8)

def SteamID.try_for_account_type (id64 : Nat) : Option AccountType :=
  AccountType.from_u8 (id64 / 2 ^ ACCOUNT_TYPE_OFFSET_BITS % 2 ^ 4)

def SteamID.new_checked (id64 : Nat) : Except Unit SteamID :=
  if (SteamID.try_for_universe id64).isSome
      ∧ (SteamID.try_for_account_type id64).isSome
      ∧ id64 / 2 ^ ACCOUNT_INSTANCE_OFFSET_BITS % 2 ^ 20 = 1
  then .ok ⟨id64⟩
  else .error ()

def SteamID.from_parts (univ : Universe) (account_type : AccountType)
    (id : Nat) : SteamID :=
  ⟨id % 2 ^ 32
    + 1 * 2 ^ ACCOUNT_INSTANCE_OFFSET_BITS
    + account_type.val * 2 ^ ACCOUNT_TYPE_OFFSET_BITS
    + univ.val * 2 ^ UNIVERSE_OFFSET_BITS⟩

theorem new_checked_valid_iff (x : Nat) (hx : x < 2 ^ 64) :
    (SteamID.new_checked x = .ok ⟨x⟩ ↔
      (x / 2 ^ 56 % 2 ^ 8 ≤ 5
        ∧ (x / 2 ^ 52 % 2 ^ 4 ≤ 8 ∨ x / 2 ^ 52 % 2 ^ 4 = 10)
        ∧ x / 2 ^ 32 % 2 ^ 20 = 1))
    ∧ (SteamID.new_checked x = .error () ↔
      ¬(x / 2 ^ 56 % 2 ^ 8 ≤ 5
        ∧ (x / 2 ^ 52 % 2 ^ 4 ≤ 8 ∨ x / 2 ^ 52 % 2 ^ 4 = 10)
        ∧ x / 2 ^ 32 % 2 ^ 20 = 1)) := by
  have key : ((SteamID.try_for_universe x).isSome
      ∧ (SteamID.try_for_account_type x).isSome
      ∧ x / 2 ^ ACCOUNT_INSTANCE_OFFSET_BITS % 2 ^ 20 = 1) ↔
      (x / 2 ^ 56 % 2 ^ 8 ≤ 5
        ∧ (x / 2 ^ 52 % 2 ^ 4 ≤ 8 ∨ x / 2 ^ 52 % 2 ^ 4 = 10)
        ∧ x / 2 ^ 32 % 2 ^ 20 = 1) := by
    rw [SteamID.try_for_universe, SteamID.try_for_account_type,
      universe_from_u8_isSome_iff, accountType_from_u8_isSome_iff]
    rfl
  unfold SteamID.new_checked
  by_cases hc : ((SteamID.try_for_universe x).isSome
      ∧ (SteamID.try_for_account_type x).isSome
      ∧ x / 2 ^ ACCOUNT_INSTANCE_OFFSET_BITS % 2 ^ 20 = 1)
  · rw [if_pos hc]
    refine ⟨⟨fun _ => key.mp hc, fun _ => rfl⟩,
      fun h => Except.noConfusion h, fun h => absurd (key.mp hc) h⟩
  · rw [if_neg hc]
    refine ⟨⟨fun h => Except.noConfusion h, fun hA => absurd (key.mpr hA) hc⟩,
      fun _ hA => hc (key.mpr hA), fun _ => rfl⟩

theorem from_parts_recombines (x : Nat) (hx : x < 2 ^ 64)
    (u : Universe) (t : AccountType)
    (hu : SteamID.try_for_universe x = some u)
    (ht : SteamID.try_for_account_type x = some t)
    (hi : x / 2 ^ 32 % 2 ^ 20 = 1) :
    SteamID.new_checked x = .ok ⟨x⟩
    ∧ SteamID.from_parts u t (x % 2 ^ 32) = ⟨x⟩ := by
  have h1 : u.val = x / 2 ^ 56 % 2 ^ 8 := universe_val_from_u8 hu
  have h2 : t.val = x / 2 ^ 52 % 2 ^ 4 := accountType_val_from_u8 ht
  constructor
  · unfold SteamID.new_checked
    rw [if_pos ⟨by rw [hu]; rfl, by rw [ht]; rfl, hi⟩]
  · unfold SteamID.from_parts
    congr 1
    rw [h1, h2]
    simp only [UNIVERSE_OFFSET_BITS, ACCOUNT_TYPE_OFFSET_BITS,
      ACCOUNT_INSTANCE_OFFSET_BITS]
    omega


/-- Claim C2: decoding a raw 64-bit value via `new_checked` succeeds exactly
when the universe byte is a known `Universe` (i.e. at most 5), the
account-type nibble is a known `AccountType` (at most 8, or 10) and the
20-bit instance field equals 1; on every other value it fails with the
malformed-identifier error (the unit error of `Result<Self, ()>`). -/
theorem new_checked_ok_iff_wellformed (x : Nat) (hx : x < 2 ^ 64) :
    (SteamID.new_checked x = .ok ⟨x⟩ ↔
      (x / 2 ^ 56 % 2 ^ 8 ≤ 5
        ∧ (x / 2 ^ 52 % 2 ^ 4 ≤ 8 ∨ x / 2 ^ 52 % 2 ^ 4 = 10)
        ∧ x / 2 ^ 32 % 2 ^ 20 = 1))
    ∧ (SteamID.new_checked x = .error () ↔
      ¬(x / 2 ^ 56 % 2 ^ 8 ≤ 5
        ∧ (x / 2 ^ 52 % 2 ^ 4 ≤ 8 ∨ x / 2 ^ 52 % 2 ^ 4 = 10)
        ∧ x / 2 ^ 32 % 2 ^ 20 = 1)) :=
  new_checked_valid_iff x hx

/-- Witness for C2 at the raw value 76561197960265729, the individual public
account with account number 1. -/
theorem new_checked_ok_iff_wellformed_witness :
    (76561197960265729 : Nat) < 2 ^ 64
    ∧ ((SteamID.new_checked 76561197960265729 = .ok ⟨76561197960265729⟩ ↔
        (76561197960265729 / 2 ^ 56 % 2 ^ 8 ≤ 5
          ∧ (76561197960265729 / 2 ^ 52 % 2 ^ 4 ≤ 8
              ∨ 76561197960265729 / 2 ^ 52 % 2 ^ 4 = 10)
          ∧ 76561197960265729 / 2 ^ 32 % 2 ^ 20 = 1))
      ∧ (SteamID.new_checked 76561197960265729 = .error () ↔
        ¬(76561197960265729 / 2 ^ 56 % 2 ^ 8 ≤ 5
          ∧ (76561197960265729 / 2 ^ 52 % 2 ^ 4 ≤ 8
              ∨ 76561197960265729 / 2 ^ 52 % 2 ^ 4 = 10)
          ∧ 76561197960265729 / 2 ^ 32 % 2 ^ 20 = 1))) :=
  ⟨by decide, new_checked_ok_iff_wellformed 76561197960265729 (by decide)⟩

/-- Claim C5: on every 64-bit value with a known universe byte, a known
account-type nibble and instance field 1, decoding succeeds and re-encoding
the decoded parts with `from_parts` (universe, account type, low 32 bits)
rebuilds exactly the original value. -/
theorem decode_encode_roundtrip (x : Nat) (hx : x < 2 ^ 64)
    (u : Universe) (t : AccountType)
    (hu : SteamID.try_for_universe x = some u)
    (ht : SteamID.try_for_account_type x = some t)
    (hi : x / 2 ^ 32 % 2 ^ 20 = 1) :
    SteamID.new_checked x = .ok ⟨x⟩
    ∧ SteamID.from_parts u t (x % 2 ^ 32) = ⟨x⟩ :=
  from_parts_recombines x hx u t hu ht hi

/-- Witness for C5 at the raw value 76561197960265729 (universe `Public`,
type `Individual`, account number 1). -/
theorem decode_encode_roundtrip_witness :
    (76561197960265729 : Nat) < 2 ^ 64
    ∧ SteamID.try_for_universe 76561197960265729 = some .Public
    ∧ SteamID.try_for_account_type 76561197960265729 = some .Individual
    ∧ 76561197960265729 / 2 ^ 32 % 2 ^ 20 = 1
    ∧ SteamID.new_checked 76561197960265729 = .ok ⟨76561197960265729⟩
    ∧ SteamID.from_parts .Public .Individual (76561197960265729 % 2 ^ 32)
        = ⟨76561197960265729⟩ := by
  refine ⟨by decide, by decide, by decide, by decide, ?_, ?_⟩
  · exact (decode_encode_roundtrip 76561197960265729 (by decide) .Public .Individual
      (by decide) (by decide) (by decide)).1
  · exact (decode_encode_roundtrip 76561197960265729 (by decide) .Public .Individual
      (by decide) (by decide) (by decide)).2

/-! ## Textual forms of a SteamID (`steam_id.rs`, `to_id3_string` and
`FromStr::from_str`)

Rust strings are embedded as their character lists (all inputs involved are
ASCII, so Rust byte indices and lengths coincide with character indices and
lengths).  `str::parse::<uN>` accepts an optional leading plus sign followed
by at least one decimal digit, with the value bounded by the integer width;
`split(':')` is `splitOnColon`; slicing `&s[..k]` is `List.take k`, and it
panics when `k` exceeds the length of the sliced string, which `from_str`
reports through the `panicked` error, as it does for the `todo!()` of the
legacy `STEAM_` branch and for `Option::unwrap` on `None`. -/

/-- The `Into<char>` table of `AccountType`. -/
def AccountType.toChar : AccountType → Char
  | .Invalid => 'I'
  | .Individual => 'U'
  | .Multiseat => 'M'
  | .GameServer => 'G'
  | .AnonGameServer => 'A'
  | .Pending => 'P'
  | .ContentServer => 'C'
  | .Clan => 'g'
  | .Chat => 'c'
  | .AnonUser => 'a'

/-- The `TryFrom<char>` table of `AccountType` (`T`, `L` and `c` all map to
`Chat`); unknown characters give `Err(())`. -/
def AccountType.try_from_char (c : Char) : Except Unit AccountType :=
  if c = 'I' then .ok .Invalid
  else if c = 'U' then .ok .Individual
  else if c = 'M' then .ok .Multiseat
  else if c = 'G' then .ok .GameServer
  else if c = 'A' then .ok .AnonGameServer
  else if c = 'P' then .ok .Pending
  else if c = 'C' then .ok .ContentServer
  else if c = 'g' then .ok .Clan
  else if c = 'T' ∨ c = 'L' ∨ c = 'c' then .ok .Chat
  else if c = 'a' then .ok .AnonUser
  else .error ()

/-- Value of a string of decimal digits. -/
def digitsToNat (cs : List Char) : Nat :=
  cs.foldl (fun a c => a * 10 + (c.toNat - 48)) 0

/-- Rust `str::parse::<u64>`. -/
def parseU64 (cs : List Char) : Option Nat :=
  let ds := match cs with
    | '+' :: rest => rest
    | _ => cs
  if ds ≠ [] ∧ ds.all Char.isDigit ∧ digitsToNat ds < 2 ^ 64 then
    some (digitsToNat ds)
  else none

/-- Rust `str::parse::<u32>`. -/
def parseU32 (cs : List Char) : Option Nat :=
  let ds := match cs with
    | '+' :: rest => rest
    | _ => cs
  if ds ≠ [] ∧ ds.all Char.isDigit ∧ digitsToNat ds < 2 ^ 32 then
    some (digitsToNat ds)
  else none

/-- Rust `str::split(':')`: the pieces between colons, empty pieces kept. -/
def splitOnColon : List Char → List (List Char)
  | [] => [[]]
  | c :: rest =>
    if c = ':' then [] :: splitOnColon rest
    else
      match splitOnColon rest with
      | [] => [[c]]
      | p :: ps => (c :: p) :: ps

/-- Decimal rendering of a number, as `u32::to_string`. -/
def natChars (n : Nat) : List Char := Nat.toDigits 10 n

/-- Outcome of `FromStr for SteamID`: `invalid` is `Err(())`, `panicked`
records a panic (out-of-bounds slice, `unwrap` on `None`, or `todo!`). -/
inductive ParseError
  | invalid
  | panicked (msg : String)
deriving Repr, DecidableEq

/-- `SteamID::to_id3_string`: `[<type char>:<low bit>:<upper 31 bits>]`,
where the account number is the low 32 bits (`self.id64 as u32`); the
`account_type()` accessor panics (`expect`) on a corrupt id. -/
def SteamID.to_id3_string (sid : SteamID) : Except String (List Char) :=
  match SteamID.try_for_account_type sid.id64 with
  | none => .error "Corrupted steam id"
  | some t =>
    let id := sid.id64 % 2 ^ 32
    .ok ('[' :: t.toChar :: ':' :: natChars (id % 2) ++ ':' :: natChars (id / 2) ++ [']'])

/-- `FromStr for SteamID`: first the decimal steamID64 form via
`new_checked`; otherwise the bracketed ID3 form; the legacy `STEAM_` form is
`todo!()`.  In the ID3 branch the source slices `parts[2][..s.len() - 1]`,
i.e. bounds the slice by the length of the WHOLE string, which panics
whenever `s.len() - 1` exceeds the length of the third piece. -/
def SteamID.from_str (s : List Char) : Except ParseError SteamID :=
  match parseU64 s with
  | some id64 =>
    match SteamID.new_checked id64 with
    | .ok sid => .ok sid
    | .error () => .error .invalid
  | none =>
    if s.head? = some '[' ∧ s.getLast? = some ']' then
      match splitOnColon s with
      | [p0, p1, p2] =>
        if p0.length = 2 ∧ p1.length = 1 then
          match parseU32 p1 with
          | none => .error .invalid
          | some lowest_bit =>
            if lowest_bit > 1 then .error .invalid
            else if p2.length < s.length - 1 then
              .error (.panicked "byte index out of bounds")
            else
              match parseU32 (p2.take (s.length - 1)) with
              | none => .error .invalid
              | some upper =>
                let account_id := upper * 2 % 2 ^ 32 + lowest_bit
                match p0.get? 1 with
                | none => .error (.panicked "unwrap on a None value")
                | some ch =>
                  match AccountType.try_from_char ch with
                  | .error () => .error .invalid
                  | .ok t => .ok (SteamID.from_parts .Public t account_id)
        else .error .invalid
      | _ => .error .invalid
    else if s.take 6 = "STEAM_".data then .error (.panicked "not yet implemented")
    else .error .invalid

/-- Claim C4 (evaluation at the failing input): 76561197960265729 is a valid
identifier in the Public universe whose bracketed form is `[U:1:0]`, yet
parsing that very string back panics with an out-of-bounds byte slice
(the source bounds the slice of `parts[2]` by the length of the whole
string), so `parseText(toBracketedString(id))` returns no identifier. -/
theorem id3_roundtrip_panics_on_valid_id :
    SteamID.new_checked 76561197960265729 = .ok ⟨76561197960265729⟩
    ∧ SteamID.try_for_universe 76561197960265729 = some .Public
    ∧ SteamID.to_id3_string ⟨76561197960265729⟩ = .ok "[U:1:0]".data
    ∧ SteamID.from_str "[U:1:0]".data
        = .error (.panicked "byte index out of bounds") :=
  ⟨rfl, rfl, rfl, rfl⟩

/-! ## Admission gates of `SQLDb::update` (`sql_db.rs`)

Two `drain_filter` calls decide which tallied logs are downloaded: the first
removes, per user, every summary whose player count lies outside the
configured inclusive range (`RangeInclusive::contains`); the second removes
a tallied log when its participation ratio `occ as f32 / num_players as f32`
is below `min_ratio`, and always removes a log whose player count is zero.

The `f32` arithmetic is embedded exactly: both counters are `u8` values and
therefore exact in `f32`, the `f32` division correctly rounds the exact
rational quotient to the nearest representable value (ties to even), and
comparing two finite `f32` values coincides with comparing the rationals
they denote.  `fl32` below performs that rounding on the value level: it
selects the binade of the quotient and rounds its 24-bit significand to the
nearest integer, ties to even.  The quotients at hand lie in `[1/255, 255]`,
far from the overflow, subnormal and NaN ranges, so neither overflow nor
subnormal rounding nor NaN ordering needs to be modelled; the threshold
`min_ratio` is the exact rational value of the (finite) `f32` the caller
passes. -/

/-- Floor of the base-2 logarithm, by fueled halving. -/
def log2floor : Nat → Nat → Nat
  | 0, _ => 0
  | fuel + 1, n => if 2 ≤ n then log2floor fuel (n / 2) + 1 else 0

theorem log2floor_spec (fuel n : Nat) (h1 : 1 ≤ n) (h2 : n < 2 ^ fuel) :
    2 ^ log2floor fuel n ≤ n ∧ n < 2 ^ (log2floor fuel n + 1) := by
  induction fuel generalizing n with
  | zero =>
    simp at h2
    omega
  | succ fuel ih =>
    rw [log2floor]
    by_cases hn : 2 ≤ n
    · rw [if_pos hn]
      have hh : n / 2 < 2 ^ fuel := by
        rw [pow_succ] at h2
        omega
      obtain ⟨hl, hr⟩ := ih (n / 2) (by omega) hh
      rw [pow_succ, pow_succ] at *
      constructor
      · omega
      · omega
    · rw [if_neg hn]
      simp
      omega

/-- The binade exponent of a positive rational in the range of interest:
the unique `e` with `2 ^ e ≤ q < 2 ^ (e + 1)`, obtained from the scaled
integer part. -/
def floatExp (q : ℚ) : Int := (log2floor 64 (⌊q * 2 ^ 30⌋).toNat : Int) - 30

theorem floatExp_spec (q : ℚ) (hlo : (2:ℚ) ^ (-30 : Int) ≤ q) (hhi : q ≤ 2 ^ 30) :
    (2:ℚ) ^ floatExp q ≤ q ∧ q < (2:ℚ) ^ (floatExp q + 1) := by
  have hq0 : 0 < q := lt_of_lt_of_le (by positivity) hlo
  set N : Int := ⌊q * 2 ^ 30⌋ with hN
  have hN1 : 1 ≤ N := by
    rw [hN, Int.le_floor]
    push_cast
    calc (1:ℚ) = 2 ^ (-30 : Int) * 2 ^ 30 := by
          rw [← zpow_natCast (2:ℚ) 30, ← zpow_add₀ (by norm_num : (2:ℚ) ≠ 0)]
          norm_num
      _ ≤ q * 2 ^ 30 := by
          have : (0:ℚ) < 2 ^ 30 := by positivity
          exact mul_le_mul_of_nonneg_right hlo (le_of_lt this)
  have hNle : (N : ℚ) ≤ q * 2 ^ 30 := Int.floor_le _
  have hNlt : q * 2 ^ 30 < N + 1 := Int.lt_floor_add_one _
  have hNhi : N ≤ 2 ^ 60 := by
    rw [hN]
    have : q * 2 ^ 30 ≤ ((2:ℚ) ^ 60 : ℚ) := by
      calc q * 2 ^ 30 ≤ 2 ^ 30 * 2 ^ 30 := by
            have : (0:ℚ) < 2 ^ 30 := by positivity
            exact mul_le_mul_of_nonneg_right hhi (le_of_lt this)
        _ = 2 ^ 60 := by norm_num
    calc N ≤ ⌊((2:ℚ) ^ 60 : ℚ)⌋ := Int.floor_le_floor this
      _ = 2 ^ 60 := by
          norm_num
  have htn : (N.toNat : Int) = N := Int.toNat_of_nonneg (by omega)
  obtain ⟨hl, hr⟩ := log2floor_spec 64 N.toNat (by omega) (by omega)
  set L : Nat := log2floor 64 N.toNat with hL
  have hcast1 : ((2:ℚ) ^ L : ℚ) ≤ (N : ℚ) := by
    rw [← htn]
    exact_mod_cast hl
  have hcast2 : ((N : ℚ) + 1) ≤ (2:ℚ) ^ (L + 1) := by
    rw [← htn]
    exact_mod_cast hr
  have hexp : floatExp q = (L : Int) - 30 := by
    rw [floatExp, ← hN, ← hL]
  constructor
  · rw [hexp]
    rw [zpow_sub₀ (by norm_num : (2:ℚ) ≠ 0)]
    rw [div_le_iff₀ (by positivity)]
    calc (2:ℚ) ^ (L : Int) = (2:ℚ) ^ L := by
          rw [zpow_natCast]
      _ ≤ (N : ℚ) := hcast1
      _ ≤ q * 2 ^ 30 := hNle
      _ = q * 2 ^ (30 : Int) := by norm_num
  · rw [hexp]
    have : (L : Int) - 30 + 1 = ((L + 1 : Nat) : Int) - 30 := by push_cast; ring
    rw [this, zpow_sub₀ (by norm_num : (2:ℚ) ≠ 0), lt_div_iff₀ (by positivity)]
    calc q * 2 ^ (30 : Int) = q * 2 ^ 30 := by norm_num
      _ < (N : ℚ) + 1 := hNlt
      _ ≤ (2:ℚ) ^ (L + 1) := hcast2
      _ = (2:ℚ) ^ ((L + 1 : Nat) : Int) := by rw [zpow_natCast]

/-- Round a rational to the nearest integer, ties to even, as IEEE-754
round-to-nearest does for the significand. -/
def rnd (x : ℚ) : Int :=
  if x - ⌊x⌋ > 1/2 then ⌊x⌋ + 1
  else if x - ⌊x⌋ < 1/2 then ⌊x⌋
  else if ⌊x⌋ % 2 = 0 then ⌊x⌋ else ⌊x⌋ + 1

theorem rnd_bounds (x : ℚ) :
    x - 1/2 ≤ (rnd x : ℚ) ∧ (rnd x : ℚ) ≤ x + 1/2 := by
  unfold rnd
  have h1 : (⌊x⌋ : ℚ) ≤ x := Int.floor_le x
  have h2 : x < ⌊x⌋ + 1 := Int.lt_floor_add_one x
  split_ifs with ha hb hc <;> constructor <;> push_cast <;> linarith

theorem rnd_nonneg (x : ℚ) (hx : 0 ≤ x) : 0 ≤ rnd x := by
  unfold rnd
  have h0 : 0 ≤ ⌊x⌋ := Int.floor_nonneg.mpr hx
  split_ifs <;> omega

/-- The value of rounding a nonnegative rational to the nearest `f32`
(round to nearest, ties to even): the 24-bit significand of the binade of
`q` is rounded to the nearest integer.  Exact on the range relevant to the
participation ratio (quotients of `u8` counters, far from overflow and
from the subnormal range). -/
def fl32 (q : ℚ) : ℚ :=
  if q ≤ 0 then 0
  else (rnd (q * (2:ℚ) ^ (23 - floatExp q)) : ℚ) * (2:ℚ) ^ (floatExp q - 23)

theorem fl32_nonneg (q : ℚ) : 0 ≤ fl32 q := by
  unfold fl32
  split_ifs with h
  · exact le_refl 0
  · push_neg at h
    have hx : (0:ℚ) ≤ q * (2:ℚ) ^ (23 - floatExp q) := by positivity
    have hm : (0:Int) ≤ rnd (q * (2:ℚ) ^ (23 - floatExp q)) := rnd_nonneg _ hx
    have hm2 : (0:ℚ) ≤ (rnd (q * (2:ℚ) ^ (23 - floatExp q)) : ℚ) := by
      exact_mod_cast hm
    positivity

theorem fl32_zero : fl32 0 = 0 := by
  unfold fl32
  norm_num

theorem fl32_ge_one (q : ℚ) (h1 : 1 ≤ q) (h2 : q ≤ 2 ^ 30) : 1 ≤ fl32 q := by
  unfold fl32
  rw [if_neg (by linarith)]
  obtain ⟨he1, he2⟩ := floatExp_spec q
    (by
      calc (2:ℚ) ^ (-30 : Int) ≤ (2:ℚ) ^ (0 : Int) :=
            zpow_le_zpow_right₀ (by norm_num) (by omega)
        _ = 1 := by norm_num
        _ ≤ q := h1) h2
  set e := floatExp q with he
  have hepos : 0 ≤ e := by
    by_contra hneg
    push_neg at hneg
    have h3 : (2:ℚ) ^ (e + 1) ≤ (2:ℚ) ^ (0 : Int) :=
      zpow_le_zpow_right₀ (by norm_num) (by omega)
    rw [show ((2:ℚ) ^ (0 : Int)) = 1 by norm_num] at h3
    linarith
  have hApos : (0:ℚ) < (2:ℚ) ^ (23 - e) := by positivity
  have hBpos : (0:ℚ) < (2:ℚ) ^ (e - 23) := by positivity
  have hxge : (8388608:ℚ) ≤ q * (2:ℚ) ^ (23 - e) := by
    calc (8388608:ℚ) = (2:ℚ) ^ (23 : Int) := by norm_num
      _ = (2:ℚ) ^ (e + (23 - e)) := by
          congr 1
          ring
      _ = (2:ℚ) ^ e * (2:ℚ) ^ (23 - e) := zpow_add₀ (by norm_num) e (23 - e)
      _ ≤ q * (2:ℚ) ^ (23 - e) := mul_le_mul_of_nonneg_right he1 hApos.le
  have hm : (8388608 : Int) ≤ rnd (q * (2:ℚ) ^ (23 - e)) := by
    have hlb := (rnd_bounds (q * (2:ℚ) ^ (23 - e))).1
    by_contra hc
    push_neg at hc
    have hc2 : rnd (q * (2:ℚ) ^ (23 - e)) ≤ 8388607 := by omega
    have hc3 : ((rnd (q * (2:ℚ) ^ (23 - e)) : Int) : ℚ) ≤ 8388607 := by
      exact_mod_cast hc2
    linarith
  have hmq : (8388608:ℚ) ≤ (rnd (q * (2:ℚ) ^ (23 - e)) : ℚ) := by exact_mod_cast hm
  have hval : (8388608:ℚ) * (2:ℚ) ^ (e - 23)
      ≤ (rnd (q * (2:ℚ) ^ (23 - e)) : ℚ) * (2:ℚ) ^ (e - 23) :=
    mul_le_mul_of_nonneg_right hmq hBpos.le
  have h2e : (8388608:ℚ) * (2:ℚ) ^ (e - 23) = (2:ℚ) ^ e := by
    calc (8388608:ℚ) * (2:ℚ) ^ (e - 23) = (2:ℚ) ^ (23 : Int) * (2:ℚ) ^ (e - 23) := by
          norm_num
      _ = (2:ℚ) ^ (23 + (e - 23)) := (zpow_add₀ (by norm_num) _ _).symm
      _ = (2:ℚ) ^ e := by
          congr 1
          ring
  have h1e : (1:ℚ) ≤ (2:ℚ) ^ e := one_le_zpow₀ (by norm_num) hepos
  linarith

theorem fl32_le_near (q : ℚ) (h0 : (2:ℚ) ^ (-30 : Int) ≤ q) (h1 : q ≤ 254/255) :
    fl32 q < 1 := by
  unfold fl32
  have hq0 : 0 < q := lt_of_lt_of_le (by positivity) h0
  rw [if_neg (by linarith)]
  obtain ⟨he1, he2⟩ := floatExp_spec q h0 (by
    calc q ≤ 254/255 := h1
      _ ≤ 2 ^ 30 := by norm_num)
  set e := floatExp q with he
  have heneg : e ≤ -1 := by
    by_contra hpos
    push_neg at hpos
    have h3 : (2:ℚ) ^ (0 : Int) ≤ (2:ℚ) ^ e :=
      zpow_le_zpow_right₀ (by norm_num) (by omega)
    rw [show ((2:ℚ) ^ (0 : Int)) = 1 by norm_num] at h3
    linarith
  have hub := (rnd_bounds (q * (2:ℚ) ^ (23 - e))).2
  have hBpos : (0:ℚ) < (2:ℚ) ^ (e - 23) := by positivity
  have step : (rnd (q * (2:ℚ) ^ (23 - e)) : ℚ) * (2:ℚ) ^ (e - 23)
      ≤ (q * (2:ℚ) ^ (23 - e) + 1/2) * (2:ℚ) ^ (e - 23) :=
    mul_le_mul_of_nonneg_right hub hBpos.le
  have hsplit : (q * (2:ℚ) ^ (23 - e) + 1/2) * (2:ℚ) ^ (e - 23)
      = q + (2:ℚ) ^ (e - 24) / 1 := by
    have hmulAB : (2:ℚ) ^ (23 - e) * (2:ℚ) ^ (e - 23) = 1 := by
      rw [← zpow_add₀ (by norm_num : (2:ℚ) ≠ 0)]
      norm_num
    have hhalfB : (1/2 : ℚ) * (2:ℚ) ^ (e - 23) = (2:ℚ) ^ (e - 24) := by
      rw [show (1/2 : ℚ) = (2:ℚ) ^ (-1 : Int) by norm_num,
        ← zpow_add₀ (by norm_num : (2:ℚ) ≠ 0)]
      congr 1
      ring
    calc (q * (2:ℚ) ^ (23 - e) + 1/2) * (2:ℚ) ^ (e - 23)
        = q * ((2:ℚ) ^ (23 - e) * (2:ℚ) ^ (e - 23))
          + (1/2 : ℚ) * (2:ℚ) ^ (e - 23) := by ring
      _ = q + (2:ℚ) ^ (e - 24) / 1 := by
          rw [hmulAB, hhalfB]
          ring
  have hsmall : (2:ℚ) ^ (e - 24) ≤ (2:ℚ) ^ (-25 : Int) :=
    zpow_le_zpow_right₀ (by norm_num) (by omega)
  have hfin : (2:ℚ) ^ (-25 : Int) = 1/33554432 := by norm_num
  rw [hsplit] at step
  rw [hfin] at hsmall
  linarith

/-- The rounded `u8` quotient reaches 1 exactly when the numerator reaches
the denominator: for `occ < np ≤ 255` the exact quotient is at most
`254/255`, more than half an ulp of 1 below 1, so rounding cannot lift it
to 1; for `occ ≥ np` the quotient is at least 1 and rounding stays at or
above 1. -/
theorem fl32_quot_ge_one_iff (occ np : Nat) (hnp0 : np ≠ 0) (hnp : np ≤ 255)
    (hocc : occ ≤ 255) :
    (1 ≤ fl32 ((occ : ℚ) / (np : ℚ)) ↔ np ≤ occ) := by
  have hnppos : (0:ℚ) < (np : ℚ) := by
    exact_mod_cast Nat.pos_of_ne_zero hnp0
  constructor
  · intro h
    by_contra hlt
    push_neg at hlt
    rcases Nat.eq_zero_or_pos occ with hocc0 | hocc0
    · subst hocc0
      rw [Nat.cast_zero, zero_div, fl32_zero] at h
      linarith
    · have hoc1 : (1:ℚ) ≤ (occ : ℚ) := by exact_mod_cast hocc0
      have hnp255 : (np : ℚ) ≤ 255 := by exact_mod_cast hnp
      have hq1 : (2:ℚ) ^ (-30 : Int) ≤ (occ : ℚ) / (np : ℚ) := by
        have hstep : (1:ℚ)/255 ≤ (occ : ℚ) / (np : ℚ) := by
          rw [div_le_div_iff₀ (by norm_num) hnppos]
          linarith
        calc (2:ℚ) ^ (-30 : Int) ≤ 1/255 := by norm_num
          _ ≤ (occ : ℚ) / (np : ℚ) := hstep
      have hq2 : (occ : ℚ) / (np : ℚ) ≤ 254/255 := by
        rw [div_le_div_iff₀ hnppos (by norm_num)]
        have hc1 : (occ : ℚ) + 1 ≤ (np : ℚ) := by exact_mod_cast hlt
        linarith
      have := fl32_le_near _ hq1 hq2
      linarith
  · intro h
    apply fl32_ge_one
    · rw [le_div_iff₀ hnppos]
      have : (np : ℚ) ≤ (occ : ℚ) := by exact_mod_cast h
      linarith
    · have h1 : (occ : ℚ) / (np : ℚ) ≤ (occ : ℚ) := by
        apply div_le_self (by positivity)
        exact_mod_cast Nat.pos_of_ne_zero hnp0
      have h2 : (occ : ℚ) ≤ 255 := by exact_mod_cast hocc
      calc (occ : ℚ) / (np : ℚ) ≤ (occ : ℚ) := h1
        _ ≤ 255 := h2
        _ ≤ 2 ^ 30 := by norm_num

/-- `fl32` is exact at `5/4` (a representable value). -/
theorem fl32_five_quarters : fl32 (5/4 : ℚ) = 5/4 := by
  have hexp : floatExp (5/4 : ℚ) = 0 := by
    unfold floatExp
    have h1 : (⌊(5/4 : ℚ) * 2 ^ 30⌋) = 1342177280 := by norm_num
    rw [h1]
    decide
  have hx : (5/4 : ℚ) * (2:ℚ) ^ ((23:Int) - 0) = 10485760 := by norm_num
  have hrnd : rnd (10485760 : ℚ) = 10485760 := by
    unfold rnd
    norm_num
  unfold fl32
  rw [if_neg (by norm_num), hexp, hx, hrnd]
  norm_num

/-- `fl32` rounds `1/3` up to the nearest `f32`, `11184811/33554432`. -/
theorem fl32_one_third : fl32 (1/3 : ℚ) = 11184811/33554432 := by
  have hexp : floatExp (1/3 : ℚ) = -2 := by
    unfold floatExp
    have h1 : (⌊(1/3 : ℚ) * 2 ^ 30⌋) = 357913941 := by
      norm_num
    rw [h1]
    decide
  have hx : (1/3 : ℚ) * (2:ℚ) ^ ((23:Int) - (-2)) = 33554432/3 := by norm_num
  have hfloor : (⌊(33554432/3 : ℚ)⌋) = 11184810 := by
    norm_num
  have hrnd : rnd (33554432/3 : ℚ) = 11184811 := by
    unfold rnd
    rw [hfloor]
    norm_num
  unfold fl32
  rw [if_neg (by norm_num), hexp, hx, hrnd]
  norm_num

/-- `RangeInclusive::contains` for the `num_players` window. -/
def rangeContains (lo hi n : Nat) : Bool := lo ≤ n && n ≤ hi

/-- The predicate of the first `drain_filter`: the summary is removed when
`!num_players.contains(&meta.num_players)`. -/
def window_removed (lo hi : Nat) (meta : LogMetadata) : Bool :=
  !(rangeContains lo hi meta.numPlayers)

/-- The predicate of the second `drain_filter`: when `meta.num_players` is
non-zero the log is removed iff `occ as f32 / num_players as f32 <
min_ratio`; a zero player count always removes the log (the `else` branch
yields `true`).  The `u8` operands are exact in `f32` and the division
rounds the exact quotient to nearest (ties to even), which `fl32` performs
on the value level; `rmin` is the exact rational value of the finite `f32`
threshold. -/
def ratio_removed (rmin : ℚ) (meta : LogMetadata) (occ : Nat) : Bool :=
  if meta.numPlayers ≠ 0 then
    decide (fl32 ((occ : ℚ) / (meta.numPlayers : ℚ)) < rmin)
  else true

/-- A tallied log is retained for download iff neither gate removes it. -/
def admitted (rmin : ℚ) (lo hi : Nat) (meta : LogMetadata) (occ : Nat) : Bool :=
  !(window_removed lo hi meta) && !(ratio_removed rmin meta occ)

/-- Counterexamples to Claim C6 as stated.  First: with `min_ratio = 1`,
the window `[2, 12]`, player count 4 and occurrence count 5 the log is
admitted although its occurrence count does not equal its player count
(`5/4` is exact in `f32` and the gate only requires the ratio to reach the
threshold).  Second: the comparison uses the `f32`-rounded quotient, not
the exact ratio: at the representable threshold `fl32(1/3) =
11184811/33554432` (which `1/3` rounds up to), a log with player count 3
and occurrence count 1 is admitted even though its exact participation
ratio `1/3` is strictly below the threshold. -/
theorem admission_minratio_one_counterexample :
    (admitted 1 2 12 ⟨105, 0, "cp_process", 4⟩ 5 = true ∧ (5 : Nat) ≠ 4)
    ∧ (admitted (11184811/33554432) 2 12 ⟨106, 0, "cp_process", 3⟩ 1 = true
        ∧ (1 : ℚ)/3 < 11184811/33554432) := by
  refine ⟨⟨?_, by decide⟩, ?_, by norm_num⟩
  · norm_num [admitted, window_removed, ratio_removed, rangeContains,
      fl32_five_quarters]
  · norm_num [admitted, window_removed, ratio_removed, rangeContains,
      fl32_one_third]

/-- Claim C6 as amended: a tallied log (with `u8` counters, so player and
occurrence counts at most 255) is retained iff its player count lies in
the inclusive window, is non-zero, and the `f32`-rounded quotient
`fl32(occ / playerCount)` reaches `minRatio` — the program compares the
rounded quotient, which can differ from the exact ratio by up to half an
ulp.  Consequently `minRatio = 0` admits every window-passing log with
non-zero player count, and `minRatio = 1` admits exactly the
window-passing logs whose occurrence count is at least (not necessarily
equal to) their player count, the boundary cases being immune to the
rounding. -/
theorem admission_iff (rmin : ℚ) (lo hi : Nat) (meta : LogMetadata) (occ : Nat)
    (hnp255 : meta.numPlayers ≤ 255) (hocc255 : occ ≤ 255) :
    (admitted rmin lo hi meta occ = true ↔
      (lo ≤ meta.numPlayers ∧ meta.numPlayers ≤ hi ∧ meta.numPlayers ≠ 0
        ∧ rmin ≤ fl32 ((occ : ℚ) / (meta.numPlayers : ℚ))))
    ∧ (rmin = 0 →
      (admitted rmin lo hi meta occ = true ↔
        (lo ≤ meta.numPlayers ∧ meta.numPlayers ≤ hi ∧ meta.numPlayers ≠ 0)))
    ∧ (rmin = 1 →
      (admitted rmin lo hi meta occ = true ↔
        (lo ≤ meta.numPlayers ∧ meta.numPlayers ≤ hi ∧ meta.numPlayers ≠ 0
          ∧ meta.numPlayers ≤ occ))) := by
  have main : admitted rmin lo hi meta occ = true ↔
      (lo ≤ meta.numPlayers ∧ meta.numPlayers ≤ hi ∧ meta.numPlayers ≠ 0
        ∧ rmin ≤ fl32 ((occ : ℚ) / (meta.numPlayers : ℚ))) := by
    unfold admitted window_removed ratio_removed rangeContains
    by_cases h0 : meta.numPlayers = 0
    · simp [h0]
    · simp [h0, not_lt]
      tauto
  refine ⟨main, ?_, ?_⟩
  · rintro rfl
    rw [main]
    have hpos : (0 : ℚ) ≤ fl32 ((occ : ℚ) / (meta.numPlayers : ℚ)) :=
      fl32_nonneg _
    tauto
  · rintro rfl
    rw [main]
    constructor
    · rintro ⟨h1, h2, h3, h4⟩
      exact ⟨h1, h2, h3,
        (fl32_quot_ge_one_iff occ meta.numPlayers h3 hnp255 hocc255).mp h4⟩
    · rintro ⟨h1, h2, h3, h4⟩
      exact ⟨h1, h2, h3,
        (fl32_quot_ge_one_iff occ meta.numPlayers h3 hnp255 hocc255).mpr h4⟩

/-- Witness for the amended C6 at `minRatio = 1`, window `[2, 12]`, player
count 4, occurrence count 5. -/
theorem admission_iff_witness :
    (4 : Nat) ≤ 255 ∧ (5 : Nat) ≤ 255
    ∧ ((admitted 1 2 12 ⟨105, 0, "cp_process", 4⟩ 5 = true ↔
        (2 ≤ 4 ∧ 4 ≤ 12 ∧ (4 : Nat) ≠ 0
          ∧ (1:ℚ) ≤ fl32 (((5 : Nat) : ℚ) / ((4 : Nat) : ℚ))))
      ∧ ((1:ℚ) = 0 →
        (admitted 1 2 12 ⟨105, 0, "cp_process", 4⟩ 5 = true ↔
          (2 ≤ 4 ∧ 4 ≤ 12 ∧ (4 : Nat) ≠ 0)))
      ∧ ((1:ℚ) = 1 →
        (admitted 1 2 12 ⟨105, 0, "cp_process", 4⟩ 5 = true ↔
          (2 ≤ 4 ∧ 4 ≤ 12 ∧ (4 : Nat) ≠ 0 ∧ (4 : Nat) ≤ 5)))) :=
  ⟨by decide, by decide,
    admission_iff 1 2 12 ⟨105, 0, "cp_process", 4⟩ 5 (by decide) (by decide)⟩

/-! ## Raw JSON records and the performance extractor (`performance/`)

The `json::JsonValue` values consumed by the extractor are embedded as a
small JSON tree.  Indexing a non-object or a missing key yields `null`
(as in the `json` crate), `members()` of a non-array is empty, and the
`as_uN` accessors succeed exactly on integral numbers within the width.
`f32` payloads (only the average uber length) are embedded as exact
rationals.  Strings are compared as in the source; the ASCII inputs make
Rust byte-level operations coincide with character-level ones. -/

inductive Json
  | null
  | bool (b : Bool)
  | num (q : ℚ)
  | str (s : String)
  | arr (elems : List Json)
  | obj (fields : List (String × Json))

/-- `json[key]`: member access, `null` for a missing key or a non-object. -/
def Json.get (j : Json) (k : String) : Json :=
  match j with
  | .obj fields =>
    match fields.lookup k with
    | some v => v
    | none => .null
  | _ => .null

/-- `JsonValue::has_key`. -/
def Json.hasKey (j : Json) (k : String) : Bool :=
  match j with
  | .obj fields => fields.any (fun f => f.1 == k)
  | _ => false

/-- `JsonValue::members()`: the elements of an array, empty otherwise. -/
def Json.members (j : Json) : List Json :=
  match j with
  | .arr elems => elems
  | _ => []

/-- `JsonValue::as_str`. -/
def Json.as_str (j : Json) : Option String :=
  match j with
  | .str s => some s
  | _ => none

/-- Common form of `as_u8` / `as_u16` / `as_u32`: an integral number within
`[0, hi]`, and `None` otherwise. -/
def Json.asBoundedNat (j : Json) (hi : Nat) : Option Nat :=
  match j with
  | .num q => if q.den = 1 ∧ 0 ≤ q.num ∧ q.num ≤ hi then some q.num.toNat else none
  | _ => none

def Json.as_u8 (j : Json) : Option Nat := j.asBoundedNat 255
def Json.as_u32 (j : Json) : Option Nat := j.asBoundedNat 4294967295

/-- `JsonValue::as_f32`, embedded exactly over the rationals. -/
def Json.as_f32 (j : Json) : Option ℚ :=
  match j with
  | .num q => some q
  | _ => none

inductive Team
  | Red | Blue
deriving Repr, DecidableEq

/-- `Team::other` from `performance/score.rs`. -/
def Team.other : Team → Team
  | .Red => .Blue
  | .Blue => .Red

/-- ASCII lower-casing, the effect of `str::to_lowercase` on the inputs at
hand. -/
def asciiLower (c : Char) : Char :=
  if 'A' ≤ c ∧ c ≤ 'Z' then Char.ofNat (c.toNat + 32) else c

/-- `FromStr for Team`: trim, lower-case, then match `red` / `blue`. -/
def Team.from_str (s : String) : Except Unit Team :=
  let t := (((s.data.dropWhile Char.isWhitespace).reverse.dropWhile
    Char.isWhitespace).reverse).map asciiLower
  if t = "red".data then .ok .Red
  else if t = "blue".data then .ok .Blue
  else .error ()

inductive Class
  | Demoman | Engineer | Heavy | Medic | Pyro | Scout | Sniper | Soldier | Spy
deriving Repr, DecidableEq

/-- `FromStr for Class` from `class.rs`; the error carries the unknown
class name (`UnknownClassError`). -/
def Class.from_str (s : String) : Except String Class :=
  if s = "demoman" then .ok .Demoman
  else if s = "engineer" then .ok .Engineer
  else if s = "heavy" ∨ s = "heavyweapons" then .ok .Heavy
  else if s = "medic" then .ok .Medic
  else if s = "pyro" then .ok .Pyro
  else if s = "scout" then .ok .Scout
  else if s = "sniper" then .ok .Sniper
  else if s = "soldier" then .ok .Soldier
  else if s = "spy" then .ok .Spy
  else .error s

/-- `Score` from `performance/score.rs`: rounds won by Red and by Blue. -/
structure Score where
  red : Nat
  blue : Nat
deriving Repr, DecidableEq

def Score.get_score (s : Score) (team : Team) : Nat :=
  match team with
  | .Red => s.red
  | .Blue => s.blue

structure GenericPerformance where
  won_rounds : Nat
  num_rounds : Nat
  damage_taken : Nat
deriving Repr, DecidableEq

/-- `DMPerformance`; the Rust field `class` is named `cls` here because
`class` is reserved in Lean. -/
structure DMPerformance where
  cls : Class
  kills : Nat
  assists : Nat
  deaths : Nat
  damage : Nat
  time_played_secs : Nat
deriving Repr, DecidableEq

structure MedicPerformance where
  healing : Nat
  average_uber_length_secs : ℚ
  num_ubers : Nat
  num_drops : Nat
  deaths : Nat
  time_played_secs : Nat
deriving Repr, DecidableEq

/-- `SpecificPerformance` from `performance/mod.rs`: its only shapes are
`DM` and `Med`. -/
inductive SpecificPerformance
  | DM (p : DMPerformance)
  | Med (p : MedicPerformance)
deriving Repr, DecidableEq

/-- `Performance` from `performance/mod.rs`: a generic part plus a
class-specific part. -/
structure Performance where
  generic : GenericPerformance
  specific : SpecificPerformance
deriving Repr, DecidableEq

/-- `Option::unwrap`: the value, or a panic. -/
def unwrapO {α : Type} (o : Option α) : Except String α :=
  match o with
  | some a => .ok a
  | none => .error "unwrap on a None value"

/-- `GenericPerformance::from_json`: `team` and `dt` are read with
`unwrap` (a missing or non-string team, an unknown team name, or a missing
`dt` panic); `won_rounds + lost_rounds` is a `u8` addition. -/
def GenericPerformance.from_json (score : Score) (j : Json) :
    Except String GenericPerformance := do
  let teamStr ← unwrapO (j.get "team").as_str
  let team ← match Team.from_str teamStr with
    | .ok t => Except.ok t
    | .error () => Except.error "unwrap on an Err value"
  let won_rounds := score.get_score team
  let lost_rounds := score.get_score team.other
  let num_rounds := (won_rounds + lost_rounds) % 2 ^ 8
  let damage_taken ← unwrapO (j.get "dt").as_u32
  pure ⟨won_rounds, num_rounds, damage_taken⟩

/-- One element of the `class_stats` mapping in
`DMPerformance::extract_all_from_json`: every numeric field is read with
`unwrap`, so a missing counter panics. -/
def DMPerformance.from_class_stats (cs : Json) : Except String DMPerformance := do
  let tstr ← unwrapO (cs.get "type").as_str
  let cls ← match Class.from_str tstr with
    | .ok c => Except.ok c
    | .error _ => Except.error "unwrap on an Err value"
  let kills ← unwrapO (cs.get "kills").as_u8
  let assists ← unwrapO (cs.get "assists").as_u8
  let deaths ← unwrapO (cs.get "deaths").as_u8
  let damage ← unwrapO (cs.get "dmg").as_u32
  let total_time ← unwrapO (cs.get "total_time").as_u32
  pure ⟨cls, kills, assists, deaths, damage, total_time⟩

/-- `DMPerformance::extract_all_from_json`: map the conversion over
`json["class_stats"].members()`. -/
def DMPerformance.extract_all_from_json (j : Json) :
    Except String (List DMPerformance) :=
  (j.get "class_stats").members.mapM DMPerformance.from_class_stats

/-- The `find` over `class_stats` in `MedicPerformance::extract_from_json`,
whose predicate parses each entry type with two `unwrap`s. -/
def findMedicClassStats : List Json → Except String (Option Json)
  | [] => .ok none
  | cs :: rest => do
    let tstr ← unwrapO (cs.get "type").as_str
    let cls ← match Class.from_str tstr with
      | .ok c => Except.ok c
      | .error _ => Except.error "unwrap on an Err value"
    if cls = Class.Medic then pure (some cs) else findMedicClassStats rest

/-- `MedicPerformance::extract_from_json`: `None` unless both the
`medicstats` block and a medic `class_stats` entry exist; all numeric
fields default to 0 via `unwrap_or`. -/
def MedicPerformance.extract_from_json (j : Json) :
    Except String (Option MedicPerformance) := do
  let class_stats ← findMedicClassStats (j.get "class_stats").members
  if !(j.hasKey "medicstats") || class_stats.isNone then
    pure none
  else
    match class_stats with
    | none => Except.error "unwrap on a None value"
    | some cs =>
      pure (some
        { healing := ((j.get "heal").as_u32).getD 0
          average_uber_length_secs :=
            (((j.get "medicstats").get "avg_uber_length").as_f32).getD 0
          num_ubers := ((j.get "ubers").as_u8).getD 0
          num_drops := ((j.get "drops").as_u8).getD 0
          deaths := ((cs.get "deaths").as_u8).getD 0
          time_played_secs := ((cs.get "total_time").as_u32).getD 0 })

/-- `Performance::extract_all_from_json` from `performance/mod.rs`: the
generic part, then one entry per `class_stats` element, then the optional
medic entry appended at the end.  No other entry shape is produced. -/
def Performance.extract_all_from_json (score : Score) (j : Json) :
    Except String (List Performance) := do
  let generic_performance ← GenericPerformance.from_json score j
  let dm_performances ← DMPerformance.extract_all_from_json j
  let med_performance ← MedicPerformance.extract_from_json j
  let performances := dm_performances.map
    (fun dm_perf => Performance.mk generic_performance (.DM dm_perf))
  match med_performance with
  | some med => pure (performances ++ [Performance.mk generic_performance (.Med med)])
  | none => pure performances

/-- The concrete raw player record of the specification scenario: team Red,
500 damage, 300 damage taken, 4 kills, 2 deaths, one scout `class_stats`
entry, no `medicstats` block. -/
def player_record_example : Json :=
  .obj [("team", .str "Red"), ("dmg", .num 500), ("dt", .num 300),
    ("kills", .num 4), ("deaths", .num 2),
    ("class_stats", .arr [.obj [("type", .str "scout"), ("kills", .num 3),
      ("assists", .num 1), ("deaths", .num 1), ("dmg", .num 400),
      ("total_time", .num 600)]])]

/-- The same record with the numeric counter `kills` removed from the
`class_stats` entry. -/
def player_record_missing_kills : Json :=
  .obj [("team", .str "Red"), ("dmg", .num 500), ("dt", .num 300),
    ("kills", .num 4), ("deaths", .num 2),
    ("class_stats", .arr [.obj [("type", .str "scout"),
      ("assists", .num 1), ("deaths", .num 1), ("dmg", .num 400),
      ("total_time", .num 600)]])]

/-- Whether an entry is the medic shape. -/
def SpecificPerformance.isMed : SpecificPerformance → Bool
  | .Med _ => true
  | .DM _ => false

/-- Claim C3 (evaluation at the failing input): on the specification's own
concrete scenario (score Red 3 / Blue 2 and `player_record_example`), the
extractor returns exactly one entry, the scout class entry; no entry of the
output carries the aggregate kills 4, deaths 2 and damage 500 — the
`Performance` type produced by `extract_all_from_json` has only the `DM`
and `Med` shapes and `OverallPerformance::from_json` is never invoked. -/
theorem extract_all_emits_no_overall_entry :
    Performance.extract_all_from_json ⟨3, 2⟩ player_record_example
      = .ok [⟨⟨3, 5, 300⟩, .DM ⟨.Scout, 3, 1, 1, 400, 600⟩⟩] :=
  rfl

/-- Counterexample to Claim C7 as stated: with the numeric field `kills`
absent from the scout `class_stats` entry, the extractor does not default
it to 0 but fails (an `unwrap` panic), for the very record on which the
claim demands a result. -/
theorem extract_all_panics_on_missing_kills :
    Performance.extract_all_from_json ⟨3, 2⟩ player_record_missing_kills
      = .error "unwrap on a None value"
    ∧ ((player_record_missing_kills.get "class_stats").members.head?.getD .null).get
        "kills" = .null :=
  ⟨rfl, rfl⟩

/-- Claim C7 as amended: the `unwrap_or(0)` defaulting holds for the Medic
entry: whenever the medic entry is produced at all, each absent numeric
field (healing, average uber length, uber count, drop count, medic deaths,
medic play time) is read as 0 and extraction still succeeds.  (For the
`ClassSpecific` entries and the generic `dt` the source uses `unwrap`, see
the counterexample.) -/
theorem medic_numeric_fields_default_to_zero (j cs : Json)
    (hfind : findMedicClassStats ((j.get "class_stats").members) = .ok (some cs))
    (hkey : j.hasKey "medicstats" = true)
    (h1 : ((j.get "heal").as_u32) = none)
    (h2 : (((j.get "medicstats").get "avg_uber_length").as_f32) = none)
    (h3 : ((j.get "ubers").as_u8) = none)
    (h4 : ((j.get "drops").as_u8) = none)
    (h5 : ((cs.get "deaths").as_u8) = none)
    (h6 : ((cs.get "total_time").as_u32) = none) :
    MedicPerformance.extract_from_json j = .ok (some ⟨0, 0, 0, 0, 0, 0⟩) := by
  unfold MedicPerformance.extract_from_json
  rw [hfind]
  simp [Bind.bind, Except.bind, Pure.pure, Except.pure,
    hkey, h1, h2, h3, h4, h5, h6]

/-- A record whose medic entry exists while every medic numeric field is
absent. -/
def medic_record_all_defaults : Json :=
  .obj [("medicstats", .obj []),
    ("class_stats", .arr [.obj [("type", .str "medic")]])]

/-- Witness for the amended C7 on `medic_record_all_defaults`: every medic
numeric field is absent and the extractor returns the all-zero entry. -/
theorem medic_numeric_fields_default_to_zero_witness :
    findMedicClassStats ((medic_record_all_defaults.get "class_stats").members)
        = .ok (some (.obj [("type", .str "medic")]))
    ∧ medic_record_all_defaults.hasKey "medicstats" = true
    ∧ ((medic_record_all_defaults.get "heal").as_u32) = none
    ∧ MedicPerformance.extract_from_json medic_record_all_defaults
        = .ok (some ⟨0, 0, 0, 0, 0, 0⟩) :=
  ⟨rfl, rfl, rfl,
    medic_numeric_fields_default_to_zero medic_record_all_defaults
      (.obj [("type", .str "medic")]) rfl rfl rfl rfl rfl rfl rfl rfl⟩

/-- The `find` returns a medic `class_stats` entry exactly when one is
present (given that it returns at all, i.e. no type `unwrap` panicked). -/
theorem findMedic_isSome_iff (l : List Json) (r : Option Json)
    (h : findMedicClassStats l = .ok r) :
    (r.isSome = true ↔
      ∃ cs ∈ l, ∃ s, (cs.get "type").as_str = some s
        ∧ Class.from_str s = .ok .Medic) := by
  induction l generalizing r with
  | nil =>
    unfold findMedicClassStats at h
    obtain rfl : (none : Option Json) = r := by
      simpa using h
    simp
  | cons cs rest ih =>
    unfold findMedicClassStats at h
    cases hstr : (cs.get "type").as_str with
    | none =>
      rw [hstr] at h
      simp [unwrapO, Bind.bind, Except.bind] at h
    | some s =>
      rw [hstr] at h
      simp only [unwrapO, Bind.bind, Except.bind] at h
      cases hcls : Class.from_str s with
      | error e =>
        rw [hcls] at h
        simp at h
      | ok c =>
        rw [hcls] at h
        simp only [Bind.bind, Except.bind] at h
        by_cases hmed : c = Class.Medic
        · subst hmed
          simp only [if_pos rfl] at h
          obtain rfl : (some cs : Option Json) = r := by
            simpa [Pure.pure, Except.pure] using h
          simp only [Option.isSome_some, true_iff]
          exact ⟨cs, List.mem_cons_self cs rest, s, hstr, hcls⟩
        · rw [if_neg hmed] at h
          rw [ih r h]
          constructor
          · rintro ⟨cs2, hmem, s2, hs2, hc2⟩
            exact ⟨cs2, List.mem_cons_of_mem _ hmem, s2, hs2, hc2⟩
          · rintro ⟨cs2, hmem, s2, hs2, hc2⟩
            rcases List.mem_cons.mp hmem with rfl | hmem2
            · rw [hstr] at hs2
              obtain rfl : s = s2 := by simpa using hs2
              rw [hcls] at hc2
              exact absurd (by simpa using hc2) hmed
            · exact ⟨cs2, hmem2, s2, hs2, hc2⟩

/-- When the medic extraction returns, its result is `some` exactly when
the record has a `medicstats` block and a medic `class_stats` entry. -/
theorem medic_extract_isSome_iff (j : Json) (m : Option MedicPerformance)
    (h : MedicPerformance.extract_from_json j = .ok m) :
    (m.isSome = true ↔
      (j.hasKey "medicstats" = true
        ∧ ∃ cs ∈ (j.get "class_stats").members, ∃ s,
            (cs.get "type").as_str = some s
              ∧ Class.from_str s = .ok .Medic)) := by
  unfold MedicPerformance.extract_from_json at h
  cases hfind : findMedicClassStats ((j.get "class_stats").members) with
  | error e =>
    rw [hfind] at h
    simp [Bind.bind, Except.bind] at h
  | ok r =>
    rw [hfind] at h
    simp only [Bind.bind, Except.bind] at h
    have hiff := findMedic_isSome_iff _ r hfind
    by_cases hkey : j.hasKey "medicstats" = true
    · cases r with
      | none =>
        simp [hkey, Pure.pure, Except.pure] at h
        obtain rfl : (none : Option MedicPerformance) = m := by simpa using h
        refine ⟨fun hh => absurd hh (by simp), ?_⟩
        rintro ⟨_, hex⟩
        exact absurd (hiff.mpr hex) (by simp)
      | some cs =>
        simp [hkey, Pure.pure, Except.pure] at h
        obtain rfl : m = some _ := by simpa using h.symm
        simp only [Option.isSome_some, true_iff]
        refine ⟨hkey, ?_⟩
        rw [← hiff]
        simp
    · have hkey2 : j.hasKey "medicstats" = false := by
        simpa using hkey
      simp [hkey2, Pure.pure, Except.pure] at h
      obtain rfl : (none : Option MedicPerformance) = m := by simpa using h
      simp [hkey2]

/-- Claim C8: whenever the extractor returns at all, its output contains a
Medic entry if and only if the raw record has a `medicstats` block AND its
`class_stats` breakdown has an entry whose type names the Medic class; when
either is absent no Medic entry is emitted. -/
theorem medic_entry_in_output_iff (score : Score) (j : Json)
    (perfs : List Performance)
    (h : Performance.extract_all_from_json score j = .ok perfs) :
    ((∃ p ∈ perfs, p.specific.isMed = true) ↔
      (j.hasKey "medicstats" = true
        ∧ ∃ cs ∈ (j.get "class_stats").members, ∃ s,
            (cs.get "type").as_str = some s
              ∧ Class.from_str s = .ok .Medic)) := by
  unfold Performance.extract_all_from_json at h
  cases hg : GenericPerformance.from_json score j with
  | error e =>
    rw [hg] at h
    simp [Bind.bind, Except.bind] at h
  | ok g =>
    rw [hg] at h
    simp only [Bind.bind, Except.bind] at h
    cases hdm : DMPerformance.extract_all_from_json j with
    | error e =>
      rw [hdm] at h
      simp at h
    | ok dms =>
      rw [hdm] at h
      simp only [Bind.bind, Except.bind] at h
      cases hmed : MedicPerformance.extract_from_json j with
      | error e =>
        rw [hmed] at h
        simp at h
      | ok med =>
        rw [hmed] at h
        have hiff := medic_extract_isSome_iff j med hmed
        cases med with
        | some mp =>
          obtain rfl : perfs
              = dms.map (fun dm_perf => Performance.mk g (.DM dm_perf))
                ++ [Performance.mk g (.Med mp)] := by
            simpa [Pure.pure, Except.pure] using h.symm
          rw [← hiff]
          simp only [Option.isSome_some, iff_true]
          exact ⟨Performance.mk g (.Med mp), by simp, rfl⟩
        | none =>
          obtain rfl : perfs
              = dms.map (fun dm_perf => Performance.mk g (.DM dm_perf)) := by
            simpa [Pure.pure, Except.pure] using h.symm
          rw [← hiff]
          simp [SpecificPerformance.isMed, List.mem_map]

/-- A record with both a `medicstats` block and a medic `class_stats`
entry, on which the extractor succeeds. -/
def medic_record_full : Json :=
  .obj [("team", .str "Red"), ("dt", .num 300), ("heal", .num 22732),
    ("ubers", .num 12), ("drops", .num 0),
    ("medicstats", .obj [("avg_uber_length", .num 6)]),
    ("class_stats", .arr [.obj [("type", .str "medic"), ("kills", .num 1),
      ("assists", .num 10), ("deaths", .num 10), ("dmg", .num 500),
      ("total_time", .num 1738)]])]

/-- Witness for C8 on `medic_record_full`: extraction succeeds and the
equivalence holds there (both sides true: the output ends in a Medic
entry, and the record has `medicstats` plus a medic class entry). -/
theorem medic_entry_in_output_iff_witness :
    Performance.extract_all_from_json ⟨3, 2⟩ medic_record_full
      = .ok [⟨⟨3, 5, 300⟩, .DM ⟨.Medic, 1, 10, 10, 500, 1738⟩⟩,
             ⟨⟨3, 5, 300⟩, .Med ⟨22732, 6, 12, 0, 10, 1738⟩⟩]
    ∧ ((∃ p ∈ [(⟨⟨3, 5, 300⟩, .DM ⟨.Medic, 1, 10, 10, 500, 1738⟩⟩ : Performance),
             ⟨⟨3, 5, 300⟩, .Med ⟨22732, 6, 12, 0, 10, 1738⟩⟩],
          p.specific.isMed = true) ↔
        (medic_record_full.hasKey "medicstats" = true
          ∧ ∃ cs ∈ (medic_record_full.get "class_stats").members, ∃ s,
              (cs.get "type").as_str = some s
                ∧ Class.from_str s = .ok .Medic)) :=
  ⟨rfl, medic_entry_in_output_iff ⟨3, 2⟩ medic_record_full _ rfl⟩

/-! ## logs.tf retrieval and the retry wrapper (`logs_tf/mod.rs`,
`logs_tf/log.rs`)

The network, JSON parsing and success-flag checking of one attempt of
`search_logs_once`, respectively of the body of `Log::download`, are
abstracted as an oracle giving the `QueryResult` outcome of the i-th
invocation (successive invocations of the same Rust closure may observe a
changing network, hence the index). -/

/-- `QueryError` from `logs_tf/query_error.rs`; the payloads of the
transport and parse variants are abstracted to their messages. -/
inductive QueryError
  | HttpResponse (msg : String)
  | JsonParseError (msg : String)
  | Unsuccessful (msg : String)
deriving Repr, DecidableEq

/-- The loop of `keep_trying`: run the action, count the try, return on
success or once `num_tries > num_retries + 1`, otherwise loop. -/
def keep_trying_loop {R E : Type} (action : Nat → Except E R)
    (num_retries : Nat) (num_tries : Nat) : Except E R :=
  let res := action num_tries
  if res.isOk ∨ num_tries + 1 > num_retries + 1 then res
  else keep_trying_loop action num_retries (num_tries + 1)
termination_by num_retries + 1 - num_tries

/-- `keep_trying` from `logs_tf/mod.rs`, starting with `num_tries = 0`. -/
def keep_trying {R E : Type} (action : Nat → Except E R)
    (num_retries : Nat) : Except E R :=
  keep_trying_loop action num_retries 0

/-- `search_logs`: one `search_logs_once` attempt (abstracted by the
oracle) wrapped in `keep_trying` with the given retry budget. -/
def search_logs (once : Nat → Except QueryError (List LogMetadata))
    (num_retries : Nat) : Except QueryError (List LogMetadata) :=
  keep_trying once num_retries

/-- `Log` from `logs_tf/log.rs`. -/
structure Log where
  meta : LogMetadata
  performances : List (SteamID × List Performance)
  duration_secs : Nat

/-- `Log::download` from `logs_tf/log.rs`: a single attempt of the
fetch-parse-check pipeline (abstracted by the oracle); it is NOT wrapped in
`keep_trying` and takes no retry budget. -/
def Log.download (once : Nat → Except QueryError Log) : Except QueryError Log :=
  once 0

/-- Claim C9 (evaluation at the failing input): with an upstream whose
first attempt fails transiently and whose later attempts succeed,
`search_logs` (retry budget 5) recovers and returns the search result,
while `Log::download` performs exactly one attempt and surfaces the first
error — it does not execute under the retry policy the claim states. -/
theorem download_does_not_retry :
    search_logs
        (fun i => if i = 0 then .error (.HttpResponse "connection reset")
          else .ok ([⟨1, 0, "cp_process", 12⟩] : List LogMetadata)) 5
      = .ok [⟨1, 0, "cp_process", 12⟩]
    ∧ Log.download
        (fun i => if i = 0 then .error (.HttpResponse "connection reset")
          else .ok ⟨⟨1, 0, "cp_process", 12⟩, [], 1800⟩)
      = .error (.HttpResponse "connection reset") := by
  constructor
  · rw [search_logs, keep_trying, keep_trying_loop, keep_trying_loop]
    rfl
  · rfl

/-! ## `SQLDb::get_class_performance` (`sql_db.rs`) -/

/-- Modelled from the spec: the `Performance` enum that `sql_db.rs`
constructs per row (variants `Overall`, `DM` and `Med`, carrying the
columns read back from the three stats tables) is referenced by
`sql_db.rs` but absent from the sources of this snapshot, whose two
performance modules define different `Performance` types; it is
reconstructed here from its uses in `SQLDb::get_class_performance` and
`SQLDb::add_log`. -/
inductive SqlPerformance
  | Overall (won_rounds num_rounds damage damage_taken kills deaths : Nat)
  | DM (cls : Class) (kills assists deaths damage time_played_secs : Nat)
  | Med (healing : Nat) (average_uber_length_secs : ℚ)
      (num_ubers num_drops deaths time_played_secs : Nat)
deriving Repr, DecidableEq

/-- The database's responses to the four queries `get_class_performance`
issues: the log-id query for (user, class, limit), and the per-log row sets
of `overall_stats`, `dm_stats` (class column first, possibly invalid) and
`med_stats`. -/
structure ClassPerfEnv where
  dm_log_ids : List Nat
  overall_rows : Nat → List (Nat × Nat × Nat × Nat × Nat × Nat)
  dm_rows : Nat → List (Int × Nat × Nat × Nat × Nat × Nat)
  med_rows : Nat → List (Nat × ℚ × Nat × Nat × Nat × Nat)

/-- `Class::from_i16` via `FromPrimitive`: the declaration-order
discriminants 0 to 8 of `class.rs`. -/
def Class.from_i16 (i : Int) : Option Class :=
  if i = 0 then some .Demoman
  else if i = 1 then some .Engineer
  else if i = 2 then some .Heavy
  else if i = 3 then some .Medic
  else if i = 4 then some .Pyro
  else if i = 5 then some .Scout
  else if i = 6 then some .Sniper
  else if i = 7 then some .Soldier
  else if i = 8 then some .Spy
  else none

/-- `Option::expect` with its message. -/
def expectO {α : Type} (o : Option α) (msg : String) : Except String α :=
  match o with
  | some a => .ok a
  | none => .error msg

/-- `SQLDb::get_class_performance`: builds the per-log performance map from
the queried rows (the `expect` on an invalid class column may panic), then
unconditionally ends in `todo!()`. -/
def SQLDb.get_class_performance (env : ClassPerfEnv) (user : SteamID)
    (cls : Class) (limit : Nat) :
    Except String (List (Nat × List SqlPerformance)) := do
  let log_ids := env.dm_log_ids
  let performances ← log_ids.foldlM (fun acc id => do
    let overall := (env.overall_rows id).map (fun r =>
      SqlPerformance.Overall r.1 r.2.1 r.2.2.1 r.2.2.2.1 r.2.2.2.2.1
        r.2.2.2.2.2)
    let dms ← (env.dm_rows id).mapM (fun r => do
      let c ← expectO (Class.from_i16 r.1) "Invalid class in the database"
      pure (SqlPerformance.DM c r.2.1 r.2.2.1 r.2.2.2.1 r.2.2.2.2.1
        r.2.2.2.2.2))
    let meds := (env.med_rows id).map (fun r =>
      SqlPerformance.Med r.1 r.2.1 r.2.2.1 r.2.2.2.1 r.2.2.2.2.1
        r.2.2.2.2.2)
    pure (acc ++ [(id, overall ++ dms ++ meds)]))
    ([] : List (Nat × List SqlPerformance))
  Except.error "not yet implemented"

/-- Claim C10: for every database state and all arguments,
`get_class_performance` never returns normally — after assembling the
per-log map it reaches the `todo!()` (or panics earlier on an invalid
class column), so no caller can obtain the documented result. -/
theorem get_class_performance_never_returns (env : ClassPerfEnv)
    (user : SteamID) (cls : Class) (limit : Nat) :
    ∀ r, SQLDb.get_class_performance env user cls limit ≠ .ok r := by
  intro r
  unfold SQLDb.get_class_performance
  simp only [Bind.bind, Except.bind]
  cases (env.dm_log_ids.foldlM (m := Except String) _
      ([] : List (Nat × List SqlPerformance))) with
  | error e => simp
  | ok v => simp

end MixesDb
